import Mathlib

/-!
Shallow embedding of the outbound notification queue (ONQ), the
retry-with-backoff wrapper, and the generic database helper (DAL) of the
prestige-timepieces backend, as implemented in services/whatsapp.ts and
the database helper class.
-/

namespace Prestige

/-- A queued notification job: an identifier and whether executing it
succeeds (`ok = true`) or raises an error (`ok = false`). -/
structure Job where
  id : Nat
  ok : Bool
deriving DecidableEq, Repr

/-- Observable events of the queue machinery: a job execution together with
its outcome, or a timed pause of the given number of milliseconds. -/
inductive QEvent where
  | exec (id : Nat) (ok : Bool)
  | delay (ms : Nat)
deriving DecidableEq, Repr

/-- Value of the constant MESSAGE_RATE_LIMIT in services/whatsapp.ts. -/
def MESSAGE_RATE_LIMIT : Nat := 1000

/-- Embedding of `processMessageQueue`: while the queue is nonempty, shift
the head job and run it inside try/catch.  The rate-limit pause
(`setTimeout(resolve, MESSAGE_RATE_LIMIT)`) is the next statement inside the
same try block, so it runs only when the job did not throw; a throwing job
jumps straight to the catch, which merely logs and the loop continues
with the next job.  The result is the sequence of events the drain performs,
in order. -/
def processMessageQueue (rate : Nat) : List Job → List QEvent
  | [] => []
  | j :: rest =>
    if j.ok then
      QEvent.exec j.id true :: QEvent.delay rate :: processMessageQueue rate rest
    else
      QEvent.exec j.id false :: processMessageQueue rate rest

/-- The module-level mutable state of the queue: the pending job list
`messageQueue` and the `isProcessingQueue` flag. -/
structure QueueState where
  messageQueue : List Job
  isProcessingQueue : Bool
deriving DecidableEq, Repr

/-- Embedding of `queueWhatsAppMessage`: push the job, then, when the
processing flag is clear, `await processMessageQueue()` — so the returned
promise of the enqueueing call settles only after the whole drain has run.
The second component is the list of events the call itself awaits before its
promise resolves (empty when a drain is already in progress). -/
def queueWhatsAppMessage (rate : Nat) (s : QueueState) (j : Job) :
    QueueState × List QEvent :=
  let s1 : QueueState := ⟨s.messageQueue ++ [j], s.isProcessingQueue⟩
  if s1.isProcessingQueue then
    (s1, [])
  else
    (⟨[], false⟩, processMessageQueue rate s1.messageQueue)

/-- Interleaved executions of the queue system: either a producer enqueues a
job (appending it to the tail), or the drain loop performs one iteration. -/
inductive QAction where
  | arrive (j : Job)
  | work
deriving DecidableEq, Repr

/-- Run the queue system under an interleaving of producer arrivals and
drain-loop iterations; once the action list is exhausted the drain loop
finishes the remaining queue.  A `work` step on an empty queue does nothing
(the drain loop has exited; a later arrival restarts it). -/
def runSys (rate : Nat) : List QAction → List Job → List QEvent
  | [], q => processMessageQueue rate q
  | QAction.arrive j :: as, q => runSys rate as (q ++ [j])
  | QAction.work :: as, q =>
    match q with
    | [] => runSys rate as []
    | j :: rest =>
      (if j.ok then [QEvent.exec j.id true, QEvent.delay rate]
       else [QEvent.exec j.id false]) ++ runSys rate as rest

/-- Project the execution events (job id and outcome) out of a trace. -/
def execs (tr : List QEvent) : List (Nat × Bool) :=
  tr.filterMap fun e =>
    match e with
    | QEvent.exec i ok => some (i, ok)
    | QEvent.delay _ => none

/-- The jobs enqueued by an action sequence, in arrival order. -/
def arrivals (as : List QAction) : List Job :=
  as.filterMap fun a =>
    match a with
    | QAction.arrive j => some j
    | QAction.work => none

/-- Whether an event is a job execution. -/
def isExecEvt : QEvent → Bool
  | QEvent.exec _ _ => true
  | QEvent.delay _ => false

/-- Between any two job executions of the trace there is a pause of the
configured delay: the reading of the claim that every job is followed by the
fixed delay before the next job starts. -/
def delaySeparated (rate : Nat) (tr : List QEvent) : Prop :=
  ∀ i j : Fin tr.length, i < j →
    isExecEvt (tr.get i) = true → isExecEvt (tr.get j) = true →
    ∃ k : Fin tr.length, i < k ∧ k < j ∧ tr.get k = QEvent.delay rate

lemma processMessageQueue_head (rate : Nat) (q : List Job) :
    (processMessageQueue rate q)[0]? = none ∨
      ∃ a b, (processMessageQueue rate q)[0]? = some (QEvent.exec a b) := by
  cases q with
  | nil => left; simp [processMessageQueue]
  | cons j rest =>
    right
    cases hok : j.ok with
    | true => exact ⟨j.id, true, by simp [processMessageQueue, hok]⟩
    | false => exact ⟨j.id, false, by simp [processMessageQueue, hok]⟩

lemma execs_processMessageQueue (rate : Nat) (q : List Job) :
    execs (processMessageQueue rate q) = q.map (fun j => (j.id, j.ok)) := by
  induction q with
  | nil => simp [processMessageQueue, execs]
  | cons j rest ih =>
    cases hok : j.ok <;>
      simp [processMessageQueue, hok, execs, List.filterMap_cons] <;>
      simpa [execs] using ih

lemma runSys_execs (rate : Nat) (as : List QAction) :
    ∀ q, execs (runSys rate as q) = (q ++ arrivals as).map (fun j => (j.id, j.ok)) := by
  induction as with
  | nil =>
    intro q
    simp [runSys, arrivals, execs_processMessageQueue]
  | cons a as ih =>
    intro q
    cases a with
    | arrive j =>
      simp only [runSys, ih, arrivals, List.filterMap_cons]
      simp
    | work =>
      cases q with
      | nil => simpa [runSys, arrivals] using ih []
      | cons j rest =>
        cases hok : j.ok <;>
          simp [runSys, hok, execs, List.filterMap_append, ih, arrivals] <;>
          simpa [execs, arrivals] using ih rest

/-- C1 counterexample: with a first job that throws and a second that
succeeds, the drain trace places the second execution immediately after the
first, with no rate-limit pause in between — the pause is skipped after a
failed job. -/
theorem processMessageQueue_not_always_delayed :
    processMessageQueue 1000 [⟨1, false⟩, ⟨2, true⟩] =
      [QEvent.exec 1 false, QEvent.exec 2 true, QEvent.delay 1000] ∧
    ¬ delaySeparated 1000 (processMessageQueue 1000 [⟨1, false⟩, ⟨2, true⟩]) := by
  constructor
  · rfl
  · unfold delaySeparated
    decide

/-- C1 (amended): after a job that executes without error the drain loop
waits the configured delay before anything else; after a job that raises an
error the wait is skipped, and the next event (if any) is immediately the
next job execution. -/
theorem processMessageQueue_delay_iff_success (rate : Nat) (q : List Job) (i id : Nat) :
    ((processMessageQueue rate q)[i]? = some (QEvent.exec id true) →
      (processMessageQueue rate q)[i + 1]? = some (QEvent.delay rate)) ∧
    ((processMessageQueue rate q)[i]? = some (QEvent.exec id false) →
      (processMessageQueue rate q)[i + 1]? = none ∨
        ∃ id2 ok2, (processMessageQueue rate q)[i + 1]? = some (QEvent.exec id2 ok2)) := by
  induction q generalizing i with
  | nil => simp [processMessageQueue]
  | cons j rest ih =>
    cases hok : j.ok with
    | true =>
      match i with
      | 0 =>
        constructor
        · intro _; simp [processMessageQueue, hok]
        · intro h; simp [processMessageQueue, hok] at h
      | 1 =>
        constructor
        · intro h; simp [processMessageQueue, hok] at h
        · intro h; simp [processMessageQueue, hok] at h
      | (n + 2) =>
        simpa [processMessageQueue, hok] using ih n
    | false =>
      match i with
      | 0 =>
        constructor
        · intro h; simp [processMessageQueue, hok] at h
        · intro _
          simpa [processMessageQueue, hok] using processMessageQueue_head rate rest
      | (n + 1) =>
        simpa [processMessageQueue, hok] using ih n

/-- Witness for C1 (amended) at a concrete queue: a successful job is
followed by the delay, and a failed job is followed directly by the next
execution. -/
theorem processMessageQueue_delay_iff_success_witness :
    (processMessageQueue 1000 [⟨1, true⟩, ⟨2, false⟩])[1]? =
        some (QEvent.delay 1000) ∧
    ((processMessageQueue 1000 [⟨1, false⟩, ⟨2, true⟩])[1]? = none ∨
      ∃ id2 ok2, (processMessageQueue 1000 [⟨1, false⟩, ⟨2, true⟩])[1]? =
        some (QEvent.exec id2 ok2)) :=
  ⟨(processMessageQueue_delay_iff_success 1000 [⟨1, true⟩, ⟨2, false⟩] 0 1).1 (by decide),
   (processMessageQueue_delay_iff_success 1000 [⟨1, false⟩, ⟨2, true⟩] 0 1).2 (by decide)⟩

/-- C2 counterexample: when no drain is in progress, the enqueueing call
itself awaits the whole drain — here its promise settles only after the new
job has executed and the rate-limit delay has elapsed, so the awaited event
list is not empty. -/
theorem queueWhatsAppMessage_blocks_on_start :
    (queueWhatsAppMessage 1000 ⟨[], false⟩ ⟨1, true⟩).2 =
      [QEvent.exec 1 true, QEvent.delay 1000] ∧
    (queueWhatsAppMessage 1000 ⟨[], false⟩ ⟨1, true⟩).2 ≠ [] := by
  constructor
  · rfl
  · decide

/-- C2 (amended): enqueue appends the job and cannot fail; when the drain
loop is already running it returns at once having awaited nothing, but when
the call is the one that starts the drain loop, its promise settles only
after the entire drain — every pending job execution and every delay —
has run. -/
theorem queueWhatsAppMessage_spec (rate : Nat) (s : QueueState) (j : Job) :
    (s.isProcessingQueue = true →
      queueWhatsAppMessage rate s j = (⟨s.messageQueue ++ [j], true⟩, [])) ∧
    (s.isProcessingQueue = false →
      queueWhatsAppMessage rate s j =
        (⟨[], false⟩, processMessageQueue rate (s.messageQueue ++ [j]))) := by
  cases s with
  | mk mq processing =>
    cases processing <;> simp [queueWhatsAppMessage]

/-- Witness for C2 (amended) at concrete states, one per branch. -/
theorem queueWhatsAppMessage_spec_witness :
    queueWhatsAppMessage 1000 ⟨[], true⟩ ⟨7, true⟩ = (⟨[⟨7, true⟩], true⟩, []) ∧
    queueWhatsAppMessage 1000 ⟨[], false⟩ ⟨7, true⟩ =
      (⟨[], false⟩, processMessageQueue 1000 [⟨7, true⟩]) :=
  ⟨(queueWhatsAppMessage_spec 1000 ⟨[], true⟩ ⟨7, true⟩).1 rfl,
   (queueWhatsAppMessage_spec 1000 ⟨[], false⟩ ⟨7, true⟩).2 rfl⟩

/-- C3: under any interleaving of producer arrivals and drain-loop steps,
the executed jobs are exactly the enqueued jobs, in enqueue order — strict
FIFO, each job attempted exactly once, and a failed job (ok = false) is
never re-attempted. -/
theorem runSys_fifo (rate : Nat) (as : List QAction) :
    execs (runSys rate as []) = (arrivals as).map (fun j => (j.id, j.ok)) := by
  simpa using runSys_execs rate as []

/-- C4: a throwing job is caught inside the drain loop and does not abort
the queue — every queued job is executed, in order, regardless of the
outcomes of earlier jobs; in particular with three jobs of which the second
throws, jobs 1 and 3 each run exactly once, in order. -/
theorem processMessageQueue_isolation :
    (∀ (rate : Nat) (q : List Job),
      execs (processMessageQueue rate q) = q.map (fun j => (j.id, j.ok))) ∧
    (∀ rate : Nat,
      execs (processMessageQueue rate [⟨1, true⟩, ⟨2, false⟩, ⟨3, true⟩]) =
        [(1, true), (2, false), (3, true)]) := by
  refine ⟨fun rate q => execs_processMessageQueue rate q, fun rate => ?_⟩
  rw [execs_processMessageQueue]
  rfl

/-- Events of the retry wrapper `sendWhatsAppWithRetry`: a send attempt
(numbered from 1) or a backoff pause of the given number of milliseconds. -/
inductive RetryEvent where
  | attempt (n : Nat)
  | wait (ms : Nat)
deriving DecidableEq, Repr

/-- Embedding of the retry loop of `sendWhatsAppWithRetry`: for attempt
numbers from 1 while `attempt <= maxRetries`, call the underlying send;
on success return its result at once; on failure record the error and, when
further attempts remain, pause `2 ^ attempt * 1000` milliseconds before the
next attempt.  The outcome carries the recorded last error (`none` when no
attempt ever ran).  `send` maps the attempt number to that attempt's result,
so a single call site can describe any success/failure pattern. -/
def sendLoop {α : Type} (send : Nat → Except String α) (maxRetries : Int)
    (attempt : Nat) (lastError : Option String) :
    List RetryEvent × Except (Option String) α :=
  if _h : (attempt : Int) ≤ maxRetries then
    match send attempt with
    | Except.ok r => ([RetryEvent.attempt attempt], Except.ok r)
    | Except.error e =>
      let rest := sendLoop send maxRetries (attempt + 1) (some e)
      if (attempt : Int) < maxRetries then
        (RetryEvent.attempt attempt :: RetryEvent.wait (2 ^ attempt * 1000) :: rest.1,
         rest.2)
      else
        (RetryEvent.attempt attempt :: rest.1, rest.2)
  else
    ([], Except.error lastError)
termination_by (maxRetries + 1 - (attempt : Int)).toNat
decreasing_by simp_wf; omega

/-- The message of the error thrown when every attempt failed, built exactly
as the template string in the source; a missing last error renders as
`undefined`. -/
def aggregateErrorMessage (maxRetries : Int) (lastError : Option String) : String :=
  "WhatsApp send failed after " ++ toString maxRetries ++ " attempts. Last error: " ++
    (match lastError with
     | some m => m
     | none => "undefined")

/-- Embedding of `sendWhatsAppWithRetry`: run the retry loop from attempt 1;
if it ends in failure, throw the aggregate error. -/
def sendWhatsAppWithRetry {α : Type} (send : Nat → Except String α)
    (maxRetries : Int) : List RetryEvent × Except String α :=
  ((sendLoop send maxRetries 1 none).1,
   match (sendLoop send maxRetries 1 none).2 with
   | Except.ok r => Except.ok r
   | Except.error le => Except.error (aggregateErrorMessage maxRetries le))

lemma sendLoop_stop {α : Type} (send : Nat → Except String α) (mR : Int)
    (a : Nat) (le : Option String) (h : ¬ ((a : Int) ≤ mR)) :
    sendLoop send mR a le = ([], Except.error le) := by
  rw [sendLoop]
  simp [h]

lemma sendLoop_ok {α : Type} (send : Nat → Except String α) (mR : Int)
    (a : Nat) (le : Option String) (r : α) (h : (a : Int) ≤ mR)
    (hs : send a = Except.ok r) :
    sendLoop send mR a le = ([RetryEvent.attempt a], Except.ok r) := by
  rw [sendLoop]
  simp [h, hs]

lemma sendLoop_err_mid {α : Type} (send : Nat → Except String α) (mR : Int)
    (a : Nat) (le : Option String) (e : String) (h : (a : Int) < mR)
    (hs : send a = Except.error e) :
    sendLoop send mR a le =
      (RetryEvent.attempt a :: RetryEvent.wait (2 ^ a * 1000) ::
        (sendLoop send mR (a + 1) (some e)).1,
       (sendLoop send mR (a + 1) (some e)).2) := by
  rw [sendLoop]
  simp [le_of_lt h, h, hs]

lemma sendLoop_err_last {α : Type} (send : Nat → Except String α) (mR : Int)
    (a : Nat) (le : Option String) (e : String) (h : (a : Int) ≤ mR)
    (h2 : ¬ ((a : Int) < mR)) (hs : send a = Except.error e) :
    sendLoop send mR a le =
      (RetryEvent.attempt a :: (sendLoop send mR (a + 1) (some e)).1,
       (sendLoop send mR (a + 1) (some e)).2) := by
  rw [sendLoop]
  simp [h, h2, hs]

lemma getLast?_cons_some {β : Type} {l : List β} {x y : β}
    (h : l.getLast? = some y) : (x :: l).getLast? = some y := by
  cases l with
  | nil => simp at h
  | cons a t => rwa [List.getLast?_cons_cons]

lemma sendLoop_ok_spec {α : Type} :
    ∀ (fuel : Nat) (send : Nat → Except String α) (mR : Int) (a : Nat)
      (le : Option String) (r : α),
      (mR + 1 - (a : Int)).toNat ≤ fuel →
      (sendLoop send mR a le).2 = Except.ok r →
      ∃ n, a ≤ n ∧ (n : Int) ≤ mR ∧ send n = Except.ok r ∧
        (sendLoop send mR a le).1.getLast? = some (RetryEvent.attempt n) ∧
        ∀ m, RetryEvent.attempt m ∈ (sendLoop send mR a le).1 → m ≤ n := by
  intro fuel
  induction fuel with
  | zero =>
    intro send mR a le r hf hok
    have h : ¬ ((a : Int) ≤ mR) := by omega
    rw [sendLoop_stop send mR a le h] at hok
    simp at hok
  | succ fuel ih =>
    intro send mR a le r hf hok
    by_cases h : (a : Int) ≤ mR
    · cases hs : send a with
      | ok r0 =>
        rw [sendLoop_ok send mR a le r0 h hs] at hok ⊢
        simp only at hok
        cases hok
        exact ⟨a, le_rfl, h, hs, by simp, by simp⟩
      | error e =>
        by_cases h2 : (a : Int) < mR
        · rw [sendLoop_err_mid send mR a le e h2 hs] at hok ⊢
          simp only at hok
          obtain ⟨n, hn1, hn2, hn3, hn4, hn5⟩ :=
            ih send mR (a + 1) (some e) r (by omega) hok
          refine ⟨n, by omega, hn2, hn3, ?_, ?_⟩
          · exact getLast?_cons_some (getLast?_cons_some hn4)
          · intro m hm
            simp only [List.mem_cons] at hm
            rcases hm with hm | hm | hm
            · cases hm; omega
            · cases hm
            · exact hn5 m hm
        · rw [sendLoop_err_last send mR a le e h h2 hs] at hok ⊢
          simp only at hok
          obtain ⟨n, hn1, hn2, hn3, hn4, hn5⟩ :=
            ih send mR (a + 1) (some e) r (by omega) hok
          refine ⟨n, by omega, hn2, hn3, getLast?_cons_some hn4, ?_⟩
          intro m hm
          simp only [List.mem_cons] at hm
          rcases hm with hm | hm
          · cases hm; omega
          · exact hn5 m hm
    · rw [sendLoop_stop send mR a le h] at hok
      simp at hok

/-- C5: with maxAttempts 3 and an underlying send failing on every attempt,
exactly three attempts occur, separated by pauses of 2000 ms and 4000 ms
(2 ^ n seconds after attempt n), no pause follows the final attempt, and
the call throws an aggregate error whose message contains the final
underlying error message. -/
theorem sendWhatsAppWithRetry_all_fail {α : Type} (send : Nat → Except String α)
    (e1 e2 e3 : String) (h1 : send 1 = Except.error e1)
    (h2 : send 2 = Except.error e2) (h3 : send 3 = Except.error e3) :
    sendWhatsAppWithRetry send 3 =
      ([RetryEvent.attempt 1, RetryEvent.wait 2000, RetryEvent.attempt 2,
        RetryEvent.wait 4000, RetryEvent.attempt 3],
       Except.error ("WhatsApp send failed after 3 attempts. Last error: " ++ e3)) ∧
    ∃ p, "WhatsApp send failed after 3 attempts. Last error: " ++ e3 = p ++ e3 := by
  have s4 : sendLoop send 3 4 (some e3) = ([], Except.error (some e3)) :=
    sendLoop_stop send 3 4 (some e3) (by decide)
  have s3 : sendLoop send 3 3 (some e2) =
      ([RetryEvent.attempt 3], Except.error (some e3)) := by
    rw [sendLoop_err_last send 3 3 (some e2) e3 (by decide) (by decide) h3, s4]
  have s2 : sendLoop send 3 2 (some e1) =
      ([RetryEvent.attempt 2, RetryEvent.wait 4000, RetryEvent.attempt 3],
       Except.error (some e3)) := by
    rw [sendLoop_err_mid send 3 2 (some e1) e2 (by decide) h2, s3]
    rfl
  have s1 : sendLoop send 3 1 none =
      ([RetryEvent.attempt 1, RetryEvent.wait 2000, RetryEvent.attempt 2,
        RetryEvent.wait 4000, RetryEvent.attempt 3],
       Except.error (some e3)) := by
    rw [sendLoop_err_mid send 3 1 none e1 (by decide) h1, s2]
    rfl
  constructor
  · simp only [sendWhatsAppWithRetry, s1]
    rfl
  · exact ⟨"WhatsApp send failed after 3 attempts. Last error: ", rfl⟩

/-- Witness for C5: an underlying send failing on every attempt with
per-attempt messages. -/
theorem sendWhatsAppWithRetry_all_fail_witness :
    sendWhatsAppWithRetry
        (fun n => (Except.error (toString n) : Except String Nat)) 3 =
      ([RetryEvent.attempt 1, RetryEvent.wait 2000, RetryEvent.attempt 2,
        RetryEvent.wait 4000, RetryEvent.attempt 3],
       Except.error ("WhatsApp send failed after 3 attempts. Last error: " ++ "3")) ∧
    ∃ p, "WhatsApp send failed after 3 attempts. Last error: " ++ "3" = p ++ "3" :=
  sendWhatsAppWithRetry_all_fail
    (fun n => (Except.error (toString n) : Except String Nat)) "1" "2" "3" rfl rfl rfl

lemma sendWhatsAppWithRetry_snd_ok {α : Type} (send : Nat → Except String α)
    (mR : Int) (r : α) (h : (sendWhatsAppWithRetry send mR).2 = Except.ok r) :
    (sendLoop send mR 1 none).2 = Except.ok r := by
  cases hres : (sendLoop send mR 1 none).2 with
  | ok r0 =>
    simp only [sendWhatsAppWithRetry, hres] at h
    injection h with h
    rw [h]
  | error le => simp only [sendWhatsAppWithRetry, hres] at h; cases h

/-- C6: whenever `sendWhatsAppWithRetry` returns a result, some attempt n
within the budget succeeded, that attempt is the very last event of the
trace (so no backoff pause and no further attempt follows it), and no
attempt beyond n was ever made; in particular with attempt 2 of 3
succeeding, the whole run is attempt 1, the 2000 ms backoff, then
attempt 2 returning the successful result. -/
theorem sendWhatsAppWithRetry_early_success {α : Type} :
    (∀ (send : Nat → Except String α) (mR : Int) (r : α),
      (sendWhatsAppWithRetry send mR).2 = Except.ok r →
      ∃ n : Nat, 1 ≤ n ∧ (n : Int) ≤ mR ∧ send n = Except.ok r ∧
        (sendWhatsAppWithRetry send mR).1.getLast? = some (RetryEvent.attempt n) ∧
        ∀ m, RetryEvent.attempt m ∈ (sendWhatsAppWithRetry send mR).1 → m ≤ n) ∧
    (∀ (send : Nat → Except String α) (e : String) (r : α),
      send 1 = Except.error e → send 2 = Except.ok r →
      sendWhatsAppWithRetry send 3 =
        ([RetryEvent.attempt 1, RetryEvent.wait 2000, RetryEvent.attempt 2],
         Except.ok r)) := by
  constructor
  · intro send mR r h
    have hok := sendWhatsAppWithRetry_snd_ok send mR r h
    obtain ⟨n, hn1, hn2, hn3, hn4, hn5⟩ :=
      sendLoop_ok_spec (mR + 1 - 1).toNat send mR 1 none r (by omega) hok
    exact ⟨n, hn1, hn2, hn3, hn4, hn5⟩
  · intro send e r h1 h2
    have s2 : sendLoop send 3 2 (some e) = ([RetryEvent.attempt 2], Except.ok r) :=
      sendLoop_ok send 3 2 (some e) r (by decide) h2
    have s1 : sendLoop send 3 1 none =
        ([RetryEvent.attempt 1, RetryEvent.wait 2000, RetryEvent.attempt 2],
         Except.ok r) := by
      rw [sendLoop_err_mid send 3 1 none e (by decide) h1, s2]
      rfl
    simp only [sendWhatsAppWithRetry, s1]

/-- Underlying send used by the C6 witness: attempt 1 fails, attempt 2
succeeds with result 42. -/
def retrySendEx : Nat → Except String Nat :=
  fun n => if n = 2 then Except.ok 42 else Except.error "boom"

/-- Witness for C6 at a concrete send where attempt 2 of 3 succeeds. -/
theorem sendWhatsAppWithRetry_early_success_witness :
    sendWhatsAppWithRetry retrySendEx 3 =
      ([RetryEvent.attempt 1, RetryEvent.wait 2000, RetryEvent.attempt 2],
       Except.ok 42) ∧
    ∃ n : Nat, 1 ≤ n ∧ (n : Int) ≤ 3 ∧ retrySendEx n = Except.ok 42 ∧
      (sendWhatsAppWithRetry retrySendEx 3).1.getLast? = some (RetryEvent.attempt n) ∧
      ∀ m, RetryEvent.attempt m ∈ (sendWhatsAppWithRetry retrySendEx 3).1 → m ≤ n := by
  have hconc :=
    (sendWhatsAppWithRetry_early_success (α := Nat)).2 retrySendEx "boom" 42 rfl rfl
  refine ⟨hconc, (sendWhatsAppWithRetry_early_success (α := Nat)).1 retrySendEx 3 42 ?_⟩
  rw [hconc]

/-- C10: with a non-positive maxAttempts the loop body never runs — the
underlying send is never consulted (the outcome is the same for every send
function), no attempt and no backoff event occurs, the recorded last error
is absent, and the call still throws the aggregate error, whose message ends
in `undefined`. -/
theorem sendWhatsAppWithRetry_nonpositive {α : Type} (send send2 : Nat → Except String α)
    (mR : Int) (h : mR ≤ 0) :
    sendWhatsAppWithRetry send mR = ([], Except.error (aggregateErrorMessage mR none)) ∧
    (sendLoop send mR 1 none).2 = Except.error none ∧
    sendWhatsAppWithRetry send mR = sendWhatsAppWithRetry send2 mR ∧
    ∃ p, aggregateErrorMessage mR none = p ++ "undefined" := by
  have hstop : sendLoop send mR 1 none = ([], Except.error none) :=
    sendLoop_stop send mR 1 none (by omega)
  have hstop2 : sendLoop send2 mR 1 none = ([], Except.error none) :=
    sendLoop_stop send2 mR 1 none (by omega)
  refine ⟨?_, by rw [hstop], ?_, ?_⟩
  · simp only [sendWhatsAppWithRetry, hstop]
  · simp only [sendWhatsAppWithRetry, hstop, hstop2]
  · exact ⟨"WhatsApp send failed after " ++ toString mR ++ " attempts. Last error: ",
      rfl⟩

/-- Witness for C10 at maxAttempts 0, with a send that would succeed if it
were ever consulted and a second send that would fail. -/
theorem sendWhatsAppWithRetry_nonpositive_witness :
    sendWhatsAppWithRetry (fun _ => (Except.ok 5 : Except String Nat)) 0 =
      ([], Except.error (aggregateErrorMessage 0 none)) ∧
    (sendLoop (fun _ => (Except.ok 5 : Except String Nat)) 0 1 none).2 =
      Except.error none ∧
    sendWhatsAppWithRetry (fun _ => (Except.ok 5 : Except String Nat)) 0 =
      sendWhatsAppWithRetry (fun _ => (Except.error "x" : Except String Nat)) 0 ∧
    ∃ p, aggregateErrorMessage 0 none = p ++ "undefined" :=
  sendWhatsAppWithRetry_nonpositive
    (fun _ => (Except.ok 5 : Except String Nat))
    (fun _ => (Except.error "x" : Except String Nat)) 0 (by decide)

/-- Scalar cell values of the relational store model. -/
inductive Value where
  | vNull
  | vInt (i : Int)
  | vText (s : String)
deriving DecidableEq, Repr

/-- A row: an association list from column name to value, as produced and
consumed by the DatabaseHelper methods. -/
abbrev Row := List (String × Value)

/-- First value bound to a column name in a row. -/
def lookupCol : Row → String → Option Value
  | [], _ => none
  | (k0, v0) :: rest, k => if k0 = k then some v0 else lookupCol rest k

/-- Assign a value to a column of a row, replacing its current binding. -/
def setCol : Row → String → Value → Row
  | [], k, v => [(k, v)]
  | (k0, v0) :: rest, k, v =>
    if k0 = k then (k0, v) :: rest else (k0, v0) :: setCol rest k v

/-- Apply the assignments of a SET clause to a row, left to right. -/
def applySet (asgns : List (String × Value)) (r : Row) : Row :=
  asgns.foldl (fun acc kv => setCol acc kv.1 kv.2) r

/-- JavaScript truthiness of the optional where-clause string argument of
`selectAll`: both an absent argument and the empty string are falsy. -/
def jsTruthy : Option String → Bool
  | none => false
  | some s => !(s == "")

namespace DatabaseHelper

/-- The query string built by `selectAll`: the WHERE fragment is appended
only when the `where` argument is truthy. -/
def selectAllQuery (table : String) (whereClause : Option String) : String :=
  let query := "SELECT * FROM " ++ table
  if jsTruthy whereClause then query ++ " WHERE " ++ whereClause.getD "" else query

/-- The query string built by `selectOne`. -/
def selectOneQuery (table whereClause : String) : String :=
  "SELECT * FROM " ++ table ++ " WHERE " ++ whereClause ++ " LIMIT 1"

/-- The query string built by `update`: one `key = ?` item per supplied key,
then the unconditional `updated_at` stamp. -/
def updateQuery (table : String) (keys : List String) (whereClause : String) : String :=
  "UPDATE " ++ table ++ " SET " ++
    String.intercalate ", " (keys.map (fun k => k ++ " = ?")) ++
    ", updated_at = CURRENT_TIMESTAMP WHERE " ++ whereClause

/-- Rows returned by `selectAll` over table contents `t`, with `interp`
giving the satisfaction predicate of a raw where-fragment: all rows when
the fragment argument is falsy (so no WHERE is appended), otherwise the
rows matching the fragment. -/
def selectAll (t : List Row) (whereClause : Option String)
    (interp : String → Row → Bool) : List Row :=
  if jsTruthy whereClause then t.filter (interp (whereClause.getD "")) else t

/-- Result of `selectOne` over table contents `t` and the where-fragment's
predicate `p`: running `SELECT ... WHERE ... LIMIT 1` and taking `.get`
yields the first matching row, or nothing when no row matches. -/
def selectOne (t : List Row) (p : Row → Bool) : Option Row :=
  (t.filter p).head?

/-- Effect of `update` over table contents `t`: the built statement assigns
the supplied keys in order and then stamps `updated_at` on every row
matching the where-predicate `p`, leaves every other row alone, and the
store reports the number of affected rows; `update` returns whether that
number is positive. -/
def update (t : List Row) (data : List (String × Value)) (p : Row → Bool)
    (now : Value) : List Row × Bool :=
  (t.map fun r => if p r then applySet (data ++ [("updated_at", now)]) r else r,
   decide (0 < (t.filter p).length))

end DatabaseHelper

lemma lookupCol_setCol_self (r : Row) (k : String) (v : Value) :
    lookupCol (setCol r k v) k = some v := by
  induction r with
  | nil => simp [setCol, lookupCol]
  | cons kv rest ih =>
    obtain ⟨k0, v0⟩ := kv
    by_cases h : k0 = k <;> simp [setCol, lookupCol, h, ih]

lemma lookupCol_setCol_ne (r : Row) (k k2 : String) (v : Value) (h : k2 ≠ k) :
    lookupCol (setCol r k v) k2 = lookupCol r k2 := by
  have h2 : k ≠ k2 := Ne.symm h
  induction r with
  | nil => simp [setCol, lookupCol, h2]
  | cons kv rest ih =>
    obtain ⟨k0, v0⟩ := kv
    by_cases h0 : k0 = k
    · subst h0
      simp [setCol, lookupCol, h2]
    · by_cases h1 : k0 = k2 <;> simp [setCol, lookupCol, h0, h1, h, ih]

lemma applySet_append (as bs : List (String × Value)) (r : Row) :
    applySet (as ++ bs) r = applySet bs (applySet as r) := by
  simp [applySet, List.foldl_append]

lemma lookupCol_applySet_not_mem (asgns : List (String × Value)) (r : Row)
    (col : String) (h : col ∉ asgns.map Prod.fst) :
    lookupCol (applySet asgns r) col = lookupCol r col := by
  induction asgns generalizing r with
  | nil => rfl
  | cons kv rest ih =>
    simp only [List.map_cons, List.mem_cons, not_or] at h
    have hstep : applySet (kv :: rest) r = applySet rest (setCol r kv.1 kv.2) := rfl
    rw [hstep, ih (setCol r kv.1 kv.2) h.2, lookupCol_setCol_ne r kv.1 col kv.2 h.1]

lemma lookupCol_applySet_updated (data : List (String × Value)) (now : Value)
    (r : Row) :
    lookupCol (applySet (data ++ [("updated_at", now)]) r) "updated_at" = some now := by
  rw [applySet_append]
  exact lookupCol_setCol_self (applySet data r) "updated_at" now

/-- C7: `update` touches exactly the rows matched by the where-clause; on a
matched row it stamps `updated_at` and leaves every column outside the
supplied keys (and outside `updated_at`) at its prior value, unmatched rows
are unchanged, the table keeps its length, and the returned flag is true
exactly when at least one row was affected. -/
theorem update_frame (t : List Row) (data : List (String × Value))
    (p : Row → Bool) (now : Value) :
    (DatabaseHelper.update t data p now).1.length = t.length ∧
    (∀ (i : Nat) (r : Row), t[i]? = some r → p r = false →
      (DatabaseHelper.update t data p now).1[i]? = some r) ∧
    (∀ (i : Nat) (r : Row), t[i]? = some r → p r = true →
      ∃ r2, (DatabaseHelper.update t data p now).1[i]? = some r2 ∧
        lookupCol r2 "updated_at" = some now ∧
        ∀ col, col ∉ data.map Prod.fst → col ≠ "updated_at" →
          lookupCol r2 col = lookupCol r col) ∧
    ((DatabaseHelper.update t data p now).2 = true ↔ ∃ r ∈ t, p r = true) := by
  refine ⟨by simp [DatabaseHelper.update], ?_, ?_, ?_⟩
  · intro i r hi hp
    simp [DatabaseHelper.update, hi, hp]
  · intro i r hi hp
    refine ⟨applySet (data ++ [("updated_at", now)]) r, ?_, ?_, ?_⟩
    · simp [DatabaseHelper.update, hi, hp]
    · exact lookupCol_applySet_updated data now r
    · intro col hc1 hc2
      have hmem : col ∉ (data ++ [("updated_at", now)]).map Prod.fst := by
        simp only [List.map_append, List.mem_append, List.map_cons, List.map_nil,
          List.mem_singleton, not_or]
        exact ⟨hc1, hc2⟩
      exact lookupCol_applySet_not_mem (data ++ [("updated_at", now)]) r col hmem
  · constructor
    · intro h
      simp only [DatabaseHelper.update, decide_eq_true_eq] at h
      obtain ⟨x, hx⟩ := List.exists_mem_of_length_pos h
      obtain ⟨hx1, hx2⟩ := List.mem_filter.mp hx
      exact ⟨x, hx1, hx2⟩
    · rintro ⟨r, hr, hp⟩
      simp only [DatabaseHelper.update, decide_eq_true_eq]
      exact List.length_pos.mpr (List.ne_nil_of_mem (List.mem_filter.mpr ⟨hr, hp⟩))

/-- A sample table row for the witnesses. -/
def wRow1 : Row :=
  [("id", Value.vInt 1), ("brand", Value.vText "Omega"), ("price", Value.vInt 4200)]

/-- A second sample table row for the witnesses. -/
def wRow2 : Row :=
  [("id", Value.vInt 2), ("brand", Value.vText "Rolex"), ("price", Value.vInt 12500)]

/-- The sample table for the witnesses. -/
def wTable : List Row := [wRow1, wRow2]

/-- The where-predicate of the fragment `id = ?` bound to 1. -/
def wPred1 : Row → Bool := fun r => decide (lookupCol r "id" = some (Value.vInt 1))

/-- The where-predicate of the fragment `id = ?` bound to 2. -/
def wPred2 : Row → Bool := fun r => decide (lookupCol r "id" = some (Value.vInt 2))

/-- A where-predicate matched by no row. -/
def wPredNone : Row → Bool := fun r => decide (lookupCol r "id" = some (Value.vInt 9))

/-- Witness for C7: updating `price` on the row with id 1 stamps
`updated_at`, keeps its other columns, leaves the other row untouched, and
reports a change. -/
theorem update_frame_witness :
    (∃ r2, (DatabaseHelper.update wTable [("price", Value.vInt 4000)] wPred1
        (Value.vText "TS")).1[0]? = some r2 ∧
      lookupCol r2 "updated_at" = some (Value.vText "TS") ∧
      ∀ col, col ∉ [("price", Value.vInt 4000)].map Prod.fst → col ≠ "updated_at" →
        lookupCol r2 col = lookupCol wRow1 col) ∧
    (DatabaseHelper.update wTable [("price", Value.vInt 4000)] wPred1
        (Value.vText "TS")).1[1]? = some wRow2 ∧
    ((DatabaseHelper.update wTable [("price", Value.vInt 4000)] wPred1
        (Value.vText "TS")).2 = true ↔ ∃ r ∈ wTable, wPred1 r = true) :=
  ⟨(update_frame wTable [("price", Value.vInt 4000)] wPred1 (Value.vText "TS")).2.2.1
      0 wRow1 (by decide) (by decide),
   (update_frame wTable [("price", Value.vInt 4000)] wPred1 (Value.vText "TS")).2.1
      1 wRow2 (by decide) (by decide),
   (update_frame wTable [("price", Value.vInt 4000)] wPred1 (Value.vText "TS")).2.2.2⟩

/-- C8: `selectOne` returns nothing exactly when no row matches (and in
particular never throws then), and when it returns a row, that row is a
matching member of the table and is the first match: every earlier row
fails the predicate. -/
theorem selectOne_first_or_none (t : List Row) (p : Row → Bool) :
    (DatabaseHelper.selectOne t p = none ↔ ∀ r ∈ t, p r = false) ∧
    (∀ r, DatabaseHelper.selectOne t p = some r →
      r ∈ t ∧ p r = true ∧
        ∃ pre post, t = pre ++ r :: post ∧ ∀ x ∈ pre, p x = false) := by
  induction t with
  | nil => simp [DatabaseHelper.selectOne]
  | cons a t ih =>
    cases ha : p a with
    | true =>
      constructor
      · constructor
        · intro h
          simp [DatabaseHelper.selectOne, List.filter_cons, ha] at h
        · intro h
          exact absurd ha (by simp [h a (List.mem_cons_self a t)])
      · intro r hr
        simp only [DatabaseHelper.selectOne, List.filter_cons, ha, if_pos,
          List.head?_cons, Option.some.injEq] at hr
        subst hr
        exact ⟨List.mem_cons_self a t, ha, [], t, rfl, by simp⟩
    | false =>
      have hskip : DatabaseHelper.selectOne (a :: t) p = DatabaseHelper.selectOne t p := by
        simp [DatabaseHelper.selectOne, List.filter_cons, ha]
      constructor
      · rw [hskip, ih.1]
        constructor
        · intro h r hr
          rcases List.mem_cons.mp hr with hr | hr
          · subst hr; exact ha
          · exact h r hr
        · intro h r hr
          exact h r (List.mem_cons_of_mem a hr)
      · intro r hr
        rw [hskip] at hr
        obtain ⟨hmem, hp, pre, post, heq, hpre⟩ := ih.2 r hr
        refine ⟨List.mem_cons_of_mem a hmem, hp, a :: pre, post, by rw [heq]; rfl, ?_⟩
        intro x hx
        rcases List.mem_cons.mp hx with hx | hx
        · subst hx; exact ha
        · exact hpre x hx

/-- Witness for C8: a predicate with no match yields nothing; the
predicate matching the second row yields it as first match. -/
theorem selectOne_first_or_none_witness :
    DatabaseHelper.selectOne wTable wPredNone = none ∧
    (wRow2 ∈ wTable ∧ wPred2 wRow2 = true ∧
      ∃ pre post, wTable = pre ++ wRow2 :: post ∧ ∀ x ∈ pre, wPred2 x = false) :=
  ⟨(selectOne_first_or_none wTable wPredNone).1.mpr (by decide),
   (selectOne_first_or_none wTable wPred2).2 wRow2 (by decide)⟩

/-- C9: a where-clause that is the empty string is falsy, so `selectAll`
builds exactly the query it builds with no where-clause at all, with no
WHERE restriction, and returns every row of the table. -/
theorem selectAll_empty_where (table : String) (t : List Row)
    (interp : String → Row → Bool) :
    DatabaseHelper.selectAllQuery table (some "") =
      DatabaseHelper.selectAllQuery table none ∧
    DatabaseHelper.selectAllQuery table none = "SELECT * FROM " ++ table ∧
    DatabaseHelper.selectAll t (some "") interp =
      DatabaseHelper.selectAll t none interp ∧
    DatabaseHelper.selectAll t none interp = t :=
  ⟨rfl, rfl, rfl, rfl⟩
